import Mathlib

/-
Verification of the typed-builder derive crate (src/src/lib.rs).

The repository is a procedural-derive crate: `lib.rs` contains the derive
entry point `derive_typed_builder` and the driver `impl_my_derive`; the
generation helpers (`StructInfo::new`, `builder_creation_impl`,
`conversion_helper_impl`, `field_impl`, `build_method_impl`) live in the
modules `struct_info` / `field_info` / `builder_attr`, which are declared in
`lib.rs` but whose sources are not part of this checkout.  Those helpers, and
the run-time semantics of the code they generate, are therefore modelled from
the specification (and from the crate-level documentation in `lib.rs`), while
the driver and entry point are translated directly from `lib.rs`.

Two layers:

1. the semantics of a generated builder: a builder state is one storage slot
   per field (`none` = Unset marker, `some v` = Set marker holding the stored
   value); a setter is available exactly on states where its slot is Unset
   (compile-time availability is modelled as definedness: an `Option`
   result that is `none` on the states where the generated signature does
   not exist); `build` is available exactly on states where every Required
   slot is Set.

2. the generator pipeline of `lib.rs`: shape dispatch on the derive input,
   error propagation via `Result`, the `unwrap` on each per-field result
   (modelled as an explicit panic outcome), and the order in which the
   generated declarations are emitted.
-/

namespace TypedBuilder

/-! ## Layer 1: semantics of the generated builder -/

/-- Modelled from the spec: the classification a field receives from the
Field Classifier (spec section 4.1; crate doc of `lib.rs`, the
`builder_attr` module is not under `src/`).  `required` = no annotation;
`optionalDefault e` = an explicit default expression (the model stores the
value the expression evaluates to); `optionalZero` = use the declared
type's intrinsic default value. -/
inductive FieldClass (V : Type) where
  | required : FieldClass V
  | optionalDefault : V → FieldClass V
  | optionalZero : FieldClass V
deriving DecidableEq, Repr

/-- Modelled from the spec: a record schema over a homogeneous value type
`V` — one classification per field plus, per field, the intrinsic zero
value of its declared type (spec section 3). -/
structure RecordSchema (V : Type) (n : Nat) where
  cls : Fin n → FieldClass V
  zero : Fin n → V

/-- Modelled from the spec: the state of a generated builder — one storage
slot per field; `none` is the Unset marker, `some v` the Set marker
together with the stored value (spec sections 3 and 4.2). -/
abbrev BuilderState (V : Type) (n : Nat) := Fin n → Option V

/-- Modelled from the spec: the all-Unset state produced by the generated
zero-argument `builder()` entry point (spec section 4.3). -/
def initialState (V : Type) (n : Nat) : BuilderState V n := fun _ => none

/-- Modelled from the spec: the setter for field `i`.  The generated setter
signature only exists on instantiations whose slot `i` is Unset; the model
returns `none` exactly on the states where no signature matches (the
compile error), and on the valid domain stores the value and flips slot
`i` to Set, all other slots carried over (spec sections 4.2 and 4.3). -/
def setField {V : Type} {n : Nat} (s : BuilderState V n) (i : Fin n) (v : V) :
    Option (BuilderState V n) :=
  match s i with
  | none => some (Function.update s i (some v))
  | some _ => none

/-- Modelled from the spec: the generated coercion bridge — a thin generic
conversion accepting any value with a convert-into capability for the
field's storage type, delegating to that conversion (spec section 4.5). -/
def conversionHelper {W V : Type} (conv : W → V) (w : W) : V := conv w

/-- Modelled from the spec: a setter invoked through the coercion bridge —
the supplied value is converted into the storage type and stored (spec
sections 4.3 and 4.5). -/
def setFieldFrom {W V : Type} {n : Nat} (conv : W → V) (s : BuilderState V n)
    (i : Fin n) (w : W) : Option (BuilderState V n) :=
  setField s i (conversionHelper conv w)

/-- Modelled from the spec: the per-field completion step of the finalizing
operation.  A Set slot moves its stored value out; an Unset Required slot
has no defined completion (the generated `build` signature does not exist
there); an Unset `optionalDefault` slot evaluates its default expression at
this point — the boolean records that the expression was evaluated here;
an Unset `optionalZero` slot substitutes the type's zero value (spec
section 4.4). -/
def completeField {V : Type} (zero : V) : FieldClass V → Option V → Option (V × Bool)
  | _, some v => some (v, false)
  | .required, none => none
  | .optionalDefault e, none => some (e, true)
  | .optionalZero, none => some (zero, false)

/-- Modelled from the spec: the generated finalizing operation `build`.  It
is available exactly on the states where every field completes (every
Required slot Set); the result is the built record together with, per
field, whether its default expression was evaluated at this finalization
site (spec section 4.4). -/
def build {V : Type} {n : Nat} (sch : RecordSchema V n) (s : BuilderState V n) :
    Option ((Fin n → V) × (Fin n → Bool)) :=
  if h : ∀ i, (completeField (sch.zero i) (sch.cls i) (s i)).isSome then
    some (fun i => ((completeField (sch.zero i) (sch.cls i) (s i)).get (h i)).1,
          fun i => ((completeField (sch.zero i) (sch.cls i) (s i)).get (h i)).2)
  else none

/-- Modelled from the spec: a construction chain — the sequence of setter
invocations `(field, value)` applied left to right, beginning at a given
state; the chain is undefined as soon as one setter is unavailable. -/
def runSetters {V : Type} {n : Nat} :
    List (Fin n × V) → BuilderState V n → Option (BuilderState V n)
  | [], s => some s
  | (i, v) :: rest, s => (setField s i v).bind (runSetters rest)

/-- One transition of the builder state machine: some setter call. -/
def Step {V : Type} {n : Nat} (s t : BuilderState V n) : Prop :=
  ∃ i v, setField s i v = some t

/-- A builder state reachable from the all-Unset initial state by setter
calls. -/
def Reachable {V : Type} {n : Nat} (s : BuilderState V n) : Prop :=
  Relation.ReflTransGen Step (initialState V n) s

/-! ## Layer 2: the generator pipeline of `lib.rs` -/

/-- Modelled from the spec: the raw `#[builder(...)]` annotation state of
one field as handed over by the schema-parsing collaborator.  `plain` = no
annotation; `defaultAnn` = `#[builder(default)]`; `defaultExpr` =
`#[builder(default=...)]` with the verbatim expression text; `malformed` =
malformed or conflicting annotation text (spec sections 4.1 and 6). -/
inductive FieldAnnotation where
  | plain : FieldAnnotation
  | defaultAnn : FieldAnnotation
  | defaultExpr : String → FieldAnnotation
  | malformed : String → FieldAnnotation
deriving DecidableEq, Repr

/-- One named field of the derive input: its name and its annotation. -/
structure NamedField where
  name : String
  annotation : FieldAnnotation
deriving DecidableEq, Repr

/-- The shape of the data of a `syn::DeriveInput`, as distinguished by the
`match` in `impl_my_derive` (lib.rs): a struct with named fields, a tuple
struct, a unit struct, an enum, or a union. -/
inductive DataShape where
  | structNamed : List NamedField → DataShape
  | structUnnamed : DataShape
  | structUnit : DataShape
  | dataEnum : DataShape
  | dataUnion : DataShape
deriving DecidableEq, Repr

/-- A derive input (`syn::DeriveInput`): the struct name and the shape of
its data. -/
structure DeriveInput where
  ident : String
  data : DataShape
deriving DecidableEq, Repr

/-- A `syn::parse::Error`: in this model, its rendered message. -/
structure SynError where
  msg : String
deriving DecidableEq, Repr

/-- A generated top-level declaration, identified by its role: the builder
type, the `builder()` entry point, the coercion bridge type, one setter per
field, and the finalizing `build` method. -/
inductive Decl where
  | builderType : Decl
  | entryPoint : Decl
  | conversionBridge : Decl
  | setter : String → Decl
  | buildMethod : Decl
deriving DecidableEq, Repr

/-- The outcome of running code that may abort the process: either a panic
(Rust `unwrap` on an `Err`) or a value. -/
inductive PanicOr (α : Type) where
  | panicked : String → PanicOr α
  | value : α → PanicOr α
deriving DecidableEq, Repr

/-- Modelled from the spec: classification of one field by the Field
Classifier (spec section 4.1; the `builder_attr` module is not under
`src/`).  A malformed or conflicting annotation is an AttributeError. -/
def classifyField (f : NamedField) : Except SynError (FieldClass String) :=
  match f.annotation with
  | .plain => .ok .required
  | .defaultAnn => .ok .optionalZero
  | .defaultExpr e => .ok (.optionalDefault e)
  | .malformed t => .error ⟨t⟩

/-- Modelled from the spec: `StructInfo::new` (the `struct_info` module is
not under `src/`).  It normalizes the named fields into the schema model,
failing with the first field's AttributeError when an annotation is
malformed or conflicting (spec sections 4.1 and 7). -/
def StructInfoNew : List NamedField → Except SynError (List (String × FieldClass String))
  | [] => .ok []
  | f :: rest =>
    match classifyField f with
    | .error e => .error e
    | .ok c =>
      match StructInfoNew rest with
      | .error e => .error e
      | .ok info => .ok ((f.name, c) :: info)

/-- Modelled from the spec: `builder_creation_impl` (the `struct_info`
module is not under `src/`).  Emits the builder type and the zero-argument
entry point (spec section 4.3); the spec gives it no failure case beyond
those already caught at classification. -/
def builder_creation_impl (info : List (String × FieldClass String)) :
    Except SynError (List Decl) :=
  .ok [.builderType, .entryPoint]

/-- Modelled from the spec: `conversion_helper_impl` (the `struct_info`
module is not under `src/`).  Emits the coercion bridge type (spec
section 4.5); infallible after classification. -/
def conversion_helper_impl (info : List (String × FieldClass String)) :
    Except SynError (List Decl) :=
  .ok [.conversionBridge]

/-- Modelled from the spec: `field_impl` (the `struct_info` module is not
under `src/`).  Emits the setter for one field (spec section 4.3); the
spec's error taxonomy places every fatal condition before this point, so
setter generation is infallible. -/
def field_impl (f : String × FieldClass String) : Except SynError Decl :=
  .ok (.setter f.1)

/-- Modelled from the spec: `build_method_impl` (the `struct_info` module
is not under `src/`).  Emits the finalizing operation (spec section 4.4);
it returns no `Result` in `lib.rs`. -/
def build_method_impl (info : List (String × FieldClass String)) : Decl :=
  .buildMethod

/-- The `.unwrap()` applied to each per-field result while the iterator is
consumed (lib.rs line 105): the first `Err` aborts the process with a
panic; otherwise the list of generated setters results. -/
def unwrapEach : List (Except SynError Decl) → PanicOr (List Decl)
  | [] => .value []
  | .error e :: _ => .panicked e.msg
  | .ok d :: rest =>
    match unwrapEach rest with
    | .panicked m => .panicked m
    | .value ds => .value (d :: ds)

/-- `impl_my_derive` of `lib.rs`, generic in the per-field generator so the
effect of the `unwrap` on a failing `field_impl` is expressible.  Named
fields: build the struct info (`?`), the builder creation (`?`), the
conversion helper (`?`), unwrap every per-field result, and emit, in order,
builder creation, conversion helper, the setters, and the build method.
Tuple structs, unit structs, enums and unions: a single `syn::Error`. -/
def impl_my_derive_gen (fieldImpl : String × FieldClass String → Except SynError Decl)
    (ast : DeriveInput) : PanicOr (Except SynError (List Decl)) :=
  match ast.data with
  | .structNamed fields =>
    match StructInfoNew fields with
    | .error e => .value (.error e)
    | .ok info =>
      match builder_creation_impl info with
      | .error e => .value (.error e)
      | .ok builderCreation =>
        match conversion_helper_impl info with
        | .error e => .value (.error e)
        | .ok conversionDecls =>
          match unwrapEach (info.map fieldImpl) with
          | .panicked m => .panicked m
          | .value setters =>
            .value (.ok (builderCreation ++ conversionDecls ++ setters ++
              [build_method_impl info]))
  | .structUnnamed => .value (.error ⟨"SmartBuilder is not supported for tuple structs"⟩)
  | .structUnit => .value (.error ⟨"SmartBuilder is not supported for unit structs"⟩)
  | .dataEnum => .value (.error ⟨"SmartBuilder is not supported for enums"⟩)
  | .dataUnion => .value (.error ⟨"SmartBuilder is not supported for unions"⟩)

/-- `impl_my_derive` of `lib.rs`, with the per-field generator it actually
calls. -/
def impl_my_derive (ast : DeriveInput) : PanicOr (Except SynError (List Decl)) :=
  impl_my_derive_gen field_impl ast

/-- What the derive hands the compiler: either the generated declarations
or one compile-time diagnostic. -/
inductive DeriveOutput where
  | generated : List Decl → DeriveOutput
  | compileError : String → DeriveOutput
deriving DecidableEq, Repr

/-- `derive_typed_builder` of `lib.rs`: run `impl_my_derive`; an `Ok`
output is emitted as the generated token stream, an `Err` is turned into
`to_compile_error` — a single compile-time diagnostic. -/
def derive_typed_builder (ast : DeriveInput) : PanicOr DeriveOutput :=
  match impl_my_derive ast with
  | .panicked m => .panicked m
  | .value (.ok decls) => .value (.generated decls)
  | .value (.error e) => .value (.compileError e.msg)

/-! ## Sample inputs used by the witnesses -/

/-- A one-field all-Required schema. -/
def schC1 : RecordSchema Nat 1 := ⟨fun _ => .required, fun _ => 0⟩

/-- A one-field builder state whose only slot is already Set. -/
def stC2 : BuilderState Nat 1 := fun _ => some 4

/-- A derive input whose data is an enum. -/
def enumInput : DeriveInput := ⟨"E", .dataEnum⟩

/-- A two-field all-Required schema. -/
def schC3 : RecordSchema Nat 2 := ⟨fun _ => .required, fun _ => 0⟩

/-- A chain setting field 0 then field 1. -/
def chainA : List (Fin 2 × Nat) := [(0, 5), (1, 7)]

/-- The same two setter calls in the opposite order. -/
def chainB : List (Fin 2 × Nat) := [(1, 7), (0, 5)]

/-- The state reached by `chainA` from the all-Unset state. -/
def stateA : BuilderState Nat 2 :=
  Function.update (Function.update (initialState Nat 2) 0 (some 5)) 1 (some 7)

/-- A one-field schema whose field carries the default expression 20. -/
def schC4 : RecordSchema Nat 1 := ⟨fun _ => .optionalDefault 20, fun _ => 0⟩

/-- A one-field schema whose field uses the type's zero value. -/
def schC5 : RecordSchema Nat 1 := ⟨fun _ => .optionalZero, fun _ => 0⟩

/-- A derive input: a struct with one unannotated (Required) named field. -/
def oneFieldInput : DeriveInput := ⟨"Foo", .structNamed [⟨"x", .plain⟩]⟩

/-! ## Supporting lemmas -/

/-- A successful setter call requires an Unset slot and updates exactly
that slot. -/
theorem setField_eq_some {V : Type} {n : Nat} {s s2 : BuilderState V n}
    {i : Fin n} {v : V} (h : setField s i v = some s2) :
    s i = none ∧ s2 = Function.update s i (some v) := by
  unfold setField at h
  cases hsi : s i with
  | none =>
      rw [hsi] at h
      injection h with h
      exact ⟨rfl, h.symm⟩
  | some u =>
      rw [hsi] at h
      exact Option.noConfusion h

/-- A slot that is Set stays Set with the same value along any successful
chain of setter calls. -/
theorem runSetters_mono {V : Type} {n : Nat} (l : List (Fin n × V)) :
    ∀ s0 s : BuilderState V n, runSetters l s0 = some s →
      ∀ j v, s0 j = some v → s j = some v := by
  induction l with
  | nil =>
      intro s0 s h j v hj
      simp only [runSetters] at h
      injection h with h
      exact h ▸ hj
  | cons p rest ih =>
      obtain ⟨i, w⟩ := p
      intro s0 s h j v hj
      simp only [runSetters] at h
      obtain ⟨s1, hs, hrest⟩ := Option.bind_eq_some.mp h
      obtain ⟨hi0, hupd⟩ := setField_eq_some hs
      have hji : j ≠ i := by
        intro he; rw [he, hi0] at hj; exact Option.noConfusion hj
      exact ih s1 s hrest j v
        (by rw [hupd, Function.update_noteq hji]; exact hj)

/-- Every field set along a successful chain was Unset at the start of the
chain. -/
theorem runSetters_keys_unset {V : Type} {n : Nat} (l : List (Fin n × V)) :
    ∀ s0 s : BuilderState V n, runSetters l s0 = some s →
      ∀ j, j ∈ l.map Prod.fst → s0 j = none := by
  induction l with
  | nil => intro s0 s h j hj; simp at hj
  | cons p rest ih =>
      obtain ⟨i, w⟩ := p
      intro s0 s h j hj
      simp only [runSetters] at h
      obtain ⟨s1, hs, hrest⟩ := Option.bind_eq_some.mp h
      obtain ⟨hi0, hupd⟩ := setField_eq_some hs
      simp only [List.map_cons, List.mem_cons] at hj
      cases hj with
      | inl he => exact he ▸ hi0
      | inr hm =>
          have h1 : s1 j = none := ih s1 s hrest j hm
          by_cases hji : j = i
          · exfalso
            subst hji
            rw [hupd, Function.update_same] at h1
            exact Option.noConfusion h1
          · rw [hupd, Function.update_noteq hji] at h1
            exact h1

/-- A successful chain of setter calls never names the same field twice. -/
theorem runSetters_keys_nodup {V : Type} {n : Nat} (l : List (Fin n × V)) :
    ∀ s0 s : BuilderState V n, runSetters l s0 = some s →
      (l.map Prod.fst).Nodup := by
  induction l with
  | nil => intro s0 s _; simp
  | cons p rest ih =>
      obtain ⟨i, w⟩ := p
      intro s0 s h
      simp only [runSetters] at h
      obtain ⟨s1, hs, hrest⟩ := Option.bind_eq_some.mp h
      obtain ⟨hi0, hupd⟩ := setField_eq_some hs
      simp only [List.map_cons, List.nodup_cons]
      refine ⟨fun hmem => ?_, ih s1 s hrest⟩
      have h1 := runSetters_keys_unset rest s1 s hrest i hmem
      rw [hupd, Function.update_same] at h1
      exact Option.noConfusion h1

/-- A field never named by the chain keeps its starting slot. -/
theorem runSetters_not_key {V : Type} {n : Nat} (l : List (Fin n × V)) :
    ∀ s0 s : BuilderState V n, runSetters l s0 = some s →
      ∀ j, j ∉ l.map Prod.fst → s j = s0 j := by
  induction l with
  | nil =>
      intro s0 s h j _
      simp only [runSetters] at h
      injection h with h
      rw [h]
  | cons p rest ih =>
      obtain ⟨i, w⟩ := p
      intro s0 s h j hj
      simp only [runSetters] at h
      obtain ⟨s1, hs, hrest⟩ := Option.bind_eq_some.mp h
      obtain ⟨hi0, hupd⟩ := setField_eq_some hs
      simp only [List.map_cons, List.mem_cons, not_or] at hj
      obtain ⟨hji, hrest2⟩ := hj
      rw [ih s1 s hrest j hrest2, hupd, Function.update_noteq hji]

/-- A field named by a successful chain ends Set with the value the chain
supplied for it. -/
theorem runSetters_mem {V : Type} {n : Nat} (l : List (Fin n × V)) :
    ∀ s0 s : BuilderState V n, runSetters l s0 = some s →
      ∀ j v, (j, v) ∈ l → s j = some v := by
  induction l with
  | nil => intro s0 s h j v hj; simp at hj
  | cons p rest ih =>
      obtain ⟨i, w⟩ := p
      intro s0 s h j v hj
      simp only [runSetters] at h
      obtain ⟨s1, hs, hrest⟩ := Option.bind_eq_some.mp h
      obtain ⟨hi0, hupd⟩ := setField_eq_some hs
      rcases List.mem_cons.mp hj with he | hm
      · injection he with h1 h2
        subst h1; subst h2
        exact runSetters_mono rest s1 s hrest j v
          (by rw [hupd, Function.update_same])
      · exact ih s1 s hrest j v hm

/-- Slot characterization of a successful chain started at the all-Unset
state: a slot holds `some v` exactly when the chain set that field to
`v`. -/
theorem runSetters_char {V : Type} {n : Nat} (l : List (Fin n × V))
    (s : BuilderState V n) (h : runSetters l (initialState V n) = some s) :
    ∀ j v, s j = some v ↔ (j, v) ∈ l := by
  intro j v
  constructor
  · intro hj
    by_cases hk : j ∈ l.map Prod.fst
    · obtain ⟨p, hp, hpj⟩ := List.mem_map.mp hk
      obtain ⟨j2, v2⟩ := p
      simp only at hpj
      subst hpj
      have h2 := runSetters_mem l _ s h j2 v2 hp
      rw [h2] at hj
      injection hj with hj
      rw [← hj]
      exact hp
    · have h2 := runSetters_not_key l _ s h j hk
      rw [h2] at hj
      exact Option.noConfusion hj
  · intro hm
    exact runSetters_mem l _ s h j v hm

/-- A chain naming pairwise distinct fields, all Unset at its start, always
succeeds. -/
theorem runSetters_total {V : Type} {n : Nat} (l : List (Fin n × V)) :
    ∀ s0 : BuilderState V n, (∀ j, j ∈ l.map Prod.fst → s0 j = none) →
      (l.map Prod.fst).Nodup → ∃ s, runSetters l s0 = some s := by
  induction l with
  | nil => intro s0 _ _; exact ⟨s0, rfl⟩
  | cons p rest ih =>
      obtain ⟨i, w⟩ := p
      intro s0 hnone hnodup
      have hi : s0 i = none := hnone i (by simp)
      simp only [List.map_cons, List.nodup_cons] at hnodup
      obtain ⟨hnotin, hnd⟩ := hnodup
      obtain ⟨s, hs⟩ := ih (Function.update s0 i (some w))
        (fun j hj => by
          have hji : j ≠ i := fun he => hnotin (he ▸ hj)
          rw [Function.update_noteq hji]
          exact hnone j (by simp [hj]))
        hnd
      refine ⟨s, ?_⟩
      simp only [runSetters, setField, hi, Option.some_bind]
      exact hs

/-- Per-field completion is defined exactly when a Required slot is Set;
completion of an optional field is always defined. -/
theorem completeField_isSome {V : Type} (z : V) (c : FieldClass V) (o : Option V) :
    (completeField z c o).isSome = true ↔
      (c = FieldClass.required → o.isSome = true) := by
  cases c <;> cases o <;> simp [completeField]

/-- Unwrapping the results of the actual `field_impl` never panics: it
yields one setter per field, in field order. -/
theorem unwrapEach_field_impl (info : List (String × FieldClass String)) :
    unwrapEach (info.map field_impl) =
      .value (info.map fun f => Decl.setter f.1) := by
  induction info with
  | nil => rfl
  | cons f rest ih =>
      simp only [List.map_cons, field_impl, unwrapEach, ih]

/-- Unwrapping a list of per-field results containing an `Err` panics. -/
theorem unwrapEach_has_error (l : List (Except SynError Decl))
    (h : ∃ x, x ∈ l ∧ ∀ d, x ≠ Except.ok d) :
    ∃ m, unwrapEach l = .panicked m := by
  induction l with
  | nil =>
      obtain ⟨x, hx, _⟩ := h
      simp at hx
  | cons a rest ih =>
      cases a with
      | error e => exact ⟨e.msg, rfl⟩
      | ok d =>
          obtain ⟨x, hx, hxe⟩ := h
          rcases List.mem_cons.mp hx with rfl | hm
          · exact absurd rfl (hxe d)
          · obtain ⟨m, hm2⟩ := ih ⟨x, hm, hxe⟩
            exact ⟨m, by simp only [unwrapEach, hm2]⟩

/-- On a named-field struct whose classification succeeds, `impl_my_derive`
emits builder creation, conversion helper, the setters, and the build
method, in the order of lib.rs lines 116-121. -/
theorem impl_my_derive_named (ast : DeriveInput) (fields : List NamedField)
    (hast : ast.data = DataShape.structNamed fields)
    (info : List (String × FieldClass String))
    (hinfo : StructInfoNew fields = Except.ok info) :
    impl_my_derive ast = .value (.ok
      ([Decl.builderType, Decl.entryPoint] ++ [Decl.conversionBridge] ++
        info.map (fun f => Decl.setter f.1) ++ [Decl.buildMethod])) := by
  unfold impl_my_derive impl_my_derive_gen
  rw [hast]
  simp [hinfo, builder_creation_impl, conversion_helper_impl,
    build_method_impl, unwrapEach_field_impl]

/-- On a named-field struct whose classification succeeds, a per-field
generator failing on one of its fields makes `impl_my_derive_gen` panic. -/
theorem impl_my_derive_gen_panics (ast : DeriveInput)
    (fields : List NamedField)
    (hast : ast.data = DataShape.structNamed fields)
    (info : List (String × FieldClass String))
    (hinfo : StructInfoNew fields = Except.ok info)
    (g : String × FieldClass String → Except SynError Decl)
    (hg : ∃ f, f ∈ info ∧ ∀ d, g f ≠ Except.ok d) :
    ∃ m, impl_my_derive_gen g ast = .panicked m := by
  obtain ⟨f, hf, hgf⟩ := hg
  obtain ⟨m, hm⟩ := unwrapEach_has_error (info.map g)
    ⟨g f, List.mem_map_of_mem g hf, hgf⟩
  refine ⟨m, ?_⟩
  unfold impl_my_derive_gen
  rw [hast]
  simp [hinfo, builder_creation_impl, conversion_helper_impl, hm]

/-- Inversion of a successful finalization: every field's completion step
produced its component of the result and its default-evaluation flag. -/
theorem build_complete_eq {V : Type} {n : Nat} {sch : RecordSchema V n}
    {s : BuilderState V n} {r : Fin n → V} {flags : Fin n → Bool}
    (hb : build sch s = some (r, flags)) (i : Fin n) :
    completeField (sch.zero i) (sch.cls i) (s i) = some (r i, flags i) := by
  unfold build at hb
  split at hb
  case isTrue h2 =>
    injection hb with hb
    have hr := congrArg Prod.fst hb
    have hf := congrArg Prod.snd hb
    simp only at hr hf
    rw [← Option.some_get (h2 i)]
    congr 1
    exact Prod.ext (congrFun hr i) (congrFun hf i)
  case isFalse => exact Option.noConfusion hb

/-! ## Claims -/

/-- C1: on every builder state reachable from the all-Unset initial state,
the finalizing operation is available (its generated signature exists, i.e.
`build` is defined) exactly when every Required slot is Set: with any
Required slot Unset it is rejected — there is no runtime failure path —
and with all Required slots Set it succeeds. -/
theorem build_available_iff_required_set {V : Type} {n : Nat}
    (sch : RecordSchema V n) (s : BuilderState V n) (h : Reachable s) :
    (build sch s).isSome = true ↔
      ∀ i, sch.cls i = FieldClass.required → (s i).isSome = true := by
  unfold build
  split
  case isTrue h2 =>
    simp only [Option.isSome_some, true_iff]
    intro i hi
    exact (completeField_isSome _ _ _).mp (h2 i) hi
  case isFalse h2 =>
    simp only [Option.isSome_none, Bool.false_eq_true, false_iff]
    intro hall
    exact h2 fun i => (completeField_isSome _ _ _).mpr fun hreq => hall i hreq

/-- Witness for C1 at the all-Required one-field schema and the (reachable)
initial state. -/
theorem build_available_iff_required_set_witness :
    ((build schC1 (initialState Nat 1)).isSome = true ↔
      ∀ i, schC1.cls i = FieldClass.required →
        ((initialState Nat 1) i).isSome = true) :=
  build_available_iff_required_set schC1 (initialState Nat 1)
    Relation.ReflTransGen.refl

/-- C2: on every builder state whose slot `i` is already Set, the setter
for field `i` is unavailable (no generated signature matches, modelled as
`none`); conversely on a state with slot `i` Unset the setter always
succeeds — there is no runtime already-set check. -/
theorem setter_rejected_when_set {V : Type} {n : Nat} (s : BuilderState V n)
    (i : Fin n) (v w : V) :
    (s i = some v → setField s i w = none) ∧
      (s i = none → ∃ s2, setField s i w = some s2) := by
  constructor
  · intro h; simp [setField, h]
  · intro h; exact ⟨Function.update s i (some w), by simp [setField, h]⟩

/-- Witness for C2: on the state whose slot is Set with 4, setting again is
rejected. -/
theorem setter_rejected_when_set_witness : setField stC2 0 9 = none :=
  (setter_rejected_when_set stC2 0 4 9).1 rfl

/-- C3: for every schema and every successful chain of setter calls from
the all-Unset state, any permutation of those calls also succeeds, and
finalizing it yields the identical result record. -/
theorem setter_order_independence {V : Type} {n : Nat}
    (sch : RecordSchema V n) (l l2 : List (Fin n × V)) (hp : l.Perm l2)
    (s : BuilderState V n) (h : runSetters l (initialState V n) = some s) :
    ∃ s2, runSetters l2 (initialState V n) = some s2 ∧
      build sch s2 = build sch s := by
  have hnd : (l.map Prod.fst).Nodup := runSetters_keys_nodup l _ s h
  have hpk : (l.map Prod.fst).Perm (l2.map Prod.fst) := hp.map Prod.fst
  have hnd2 : (l2.map Prod.fst).Nodup := hpk.nodup_iff.mp hnd
  obtain ⟨s2, hs2⟩ := runSetters_total l2 (initialState V n)
    (fun j _ => rfl) hnd2
  have heq : s2 = s := by
    funext j
    cases hj : s j with
    | some v =>
        exact (runSetters_char l2 s2 hs2 j v).mpr
          (hp.mem_iff.mp ((runSetters_char l s h j v).mp hj))
    | none =>
        cases hj2 : s2 j with
        | none => rfl
        | some v =>
            have hm : (j, v) ∈ l :=
              hp.mem_iff.mpr ((runSetters_char l2 s2 hs2 j v).mp hj2)
            rw [(runSetters_char l s h j v).mpr hm] at hj
            exact Option.noConfusion hj
  exact ⟨s2, hs2, by rw [heq]⟩

/-- Witness for C3: swapping two setter calls on a two-required-field
schema yields the same built record. -/
theorem setter_order_independence_witness :
    ∃ s2, runSetters chainB (initialState Nat 2) = some s2 ∧
      build schC3 s2 = build schC3 stateA :=
  setter_order_independence schC3 chainA chainB
    (List.Perm.swap (1, 7) (0, 5) []) stateA rfl

/-- C4: for every field classified with an explicit default expression, a
finalization whose chain never set that field gives the field the value of
the default expression and records that the expression was evaluated at
the finalization site; a finalization whose chain set the field gives it
the supplied value and the default expression is not evaluated. -/
theorem optional_default_lazy {V : Type} {n : Nat} (sch : RecordSchema V n)
    (l : List (Fin n × V)) (s : BuilderState V n)
    (hrun : runSetters l (initialState V n) = some s)
    (i : Fin n) (e : V) (hc : sch.cls i = FieldClass.optionalDefault e)
    (r : Fin n → V) (flags : Fin n → Bool)
    (hb : build sch s = some (r, flags)) :
    ((∀ v, (i, v) ∉ l) → r i = e ∧ flags i = true) ∧
      (∀ v, (i, v) ∈ l → r i = v ∧ flags i = false) := by
  have hcomp := build_complete_eq hb i
  constructor
  · intro hnot
    have hsi : s i = none := by
      cases hsi : s i with
      | none => rfl
      | some v =>
          exact absurd ((runSetters_char l s hrun i v).mp hsi) (hnot v)
    rw [hsi, hc] at hcomp
    have h2 : (some (e, true) : Option (V × Bool)) = some (r i, flags i) := hcomp
    injection h2 with h2
    exact ⟨(congrArg Prod.fst h2).symm, (congrArg Prod.snd h2).symm⟩
  · intro v hv
    have hsi : s i = some v := (runSetters_char l s hrun i v).mpr hv
    rw [hsi, hc] at hcomp
    have h2 : (some (v, false) : Option (V × Bool)) = some (r i, flags i) := hcomp
    injection h2 with h2
    exact ⟨(congrArg Prod.fst h2).symm, (congrArg Prod.snd h2).symm⟩

/-- Witness for C4: a one-field schema with default expression value 20,
finalized with an empty chain. -/
theorem optional_default_lazy_witness :
    ((∀ v, ((0 : Fin 1), v) ∉ ([] : List (Fin 1 × Nat))) →
        (fun _ : Fin 1 => 20) (0 : Fin 1) = 20 ∧
          (fun _ : Fin 1 => true) (0 : Fin 1) = true) ∧
      (∀ v, ((0 : Fin 1), v) ∈ ([] : List (Fin 1 × Nat)) →
        (fun _ : Fin 1 => 20) (0 : Fin 1) = v ∧
          (fun _ : Fin 1 => true) (0 : Fin 1) = false) :=
  optional_default_lazy schC4 [] (initialState Nat 1) rfl 0 20 rfl
    (fun _ => 20) (fun _ => true) (by decide)

/-- C5: for every field classified with the type's intrinsic zero value, a
finalization whose chain never set that field gives the field the zero
value; a finalization whose chain set the field gives it the supplied
value. -/
theorem optional_zero_value {V : Type} {n : Nat} (sch : RecordSchema V n)
    (l : List (Fin n × V)) (s : BuilderState V n)
    (hrun : runSetters l (initialState V n) = some s)
    (i : Fin n) (hc : sch.cls i = FieldClass.optionalZero)
    (r : Fin n → V) (flags : Fin n → Bool)
    (hb : build sch s = some (r, flags)) :
    ((∀ v, (i, v) ∉ l) → r i = sch.zero i) ∧
      (∀ v, (i, v) ∈ l → r i = v) := by
  have hcomp := build_complete_eq hb i
  constructor
  · intro hnot
    have hsi : s i = none := by
      cases hsi : s i with
      | none => rfl
      | some v =>
          exact absurd ((runSetters_char l s hrun i v).mp hsi) (hnot v)
    rw [hsi, hc] at hcomp
    have h2 : (some (sch.zero i, false) : Option (V × Bool)) =
        some (r i, flags i) := hcomp
    injection h2 with h2
    exact (congrArg Prod.fst h2).symm
  · intro v hv
    have hsi : s i = some v := (runSetters_char l s hrun i v).mpr hv
    rw [hsi, hc] at hcomp
    have h2 : (some (v, false) : Option (V × Bool)) = some (r i, flags i) :=
      hcomp
    injection h2 with h2
    exact (congrArg Prod.fst h2).symm

/-- Witness for C5: a one-field zero-value schema, finalized with an empty
chain. -/
theorem optional_zero_value_witness :
    ((∀ v, ((0 : Fin 1), v) ∉ ([] : List (Fin 1 × Nat))) →
        (fun _ : Fin 1 => 0) (0 : Fin 1) = schC5.zero 0) ∧
      (∀ v, ((0 : Fin 1), v) ∈ ([] : List (Fin 1 × Nat)) →
        (fun _ : Fin 1 => 0) (0 : Fin 1) = v) :=
  optional_zero_value schC5 [] (initialState Nat 1) rfl 0 rfl
    (fun _ => 0) (fun _ => false) (by decide)

/-- C6: on every builder state with slot `i` Unset, invoking the setter for
field `i` through the coercion bridge with any convertible value stores the
converted value, flips slot `i` to Set, and leaves every other slot
unchanged. -/
theorem setter_stores_and_frames {W V : Type} {n : Nat} (conv : W → V)
    (s : BuilderState V n) (i : Fin n) (w : W) (h : s i = none) :
    ∃ s2, setFieldFrom conv s i w = some s2 ∧ s2 i = some (conv w) ∧
      ∀ j, j ≠ i → s2 j = s j := by
  refine ⟨Function.update s i (some (conv w)), ?_, ?_, ?_⟩
  · simp [setFieldFrom, setField, conversionHelper, h]
  · simp
  · intro j hj
    exact Function.update_noteq hj _ _

/-- Witness for C6 at the two-field initial state, field 0, converting via
`Nat.succ`. -/
theorem setter_stores_and_frames_witness :
    ∃ s2, setFieldFrom Nat.succ (initialState Nat 2) 0 5 = some s2 ∧
      s2 0 = some (Nat.succ 5) ∧ ∀ j, j ≠ 0 → s2 j = initialState Nat 2 j :=
  setter_stores_and_frames Nat.succ (initialState Nat 2) 0 5 rfl

/-- C7: on every derive input that is not a named-field struct — tuple
struct, unit struct, enum, union — `impl_my_derive` fails as a single unit
with one error, and the derive's entire output is that one compile-time
diagnostic: no partial generated output and no panic. -/
theorem non_named_input_one_diagnostic (ast : DeriveInput)
    (h : ∀ fields, ast.data ≠ DataShape.structNamed fields) :
    ∃ m, impl_my_derive ast = .value (.error ⟨m⟩) ∧
      derive_typed_builder ast = .value (.compileError m) := by
  cases hd : ast.data with
  | structNamed fields => exact absurd hd (h fields)
  | structUnnamed =>
      exact ⟨"SmartBuilder is not supported for tuple structs",
        by simp [impl_my_derive, impl_my_derive_gen, hd],
        by simp [derive_typed_builder, impl_my_derive, impl_my_derive_gen, hd]⟩
  | structUnit =>
      exact ⟨"SmartBuilder is not supported for unit structs",
        by simp [impl_my_derive, impl_my_derive_gen, hd],
        by simp [derive_typed_builder, impl_my_derive, impl_my_derive_gen, hd]⟩
  | dataEnum =>
      exact ⟨"SmartBuilder is not supported for enums",
        by simp [impl_my_derive, impl_my_derive_gen, hd],
        by simp [derive_typed_builder, impl_my_derive, impl_my_derive_gen, hd]⟩
  | dataUnion =>
      exact ⟨"SmartBuilder is not supported for unions",
        by simp [impl_my_derive, impl_my_derive_gen, hd],
        by simp [derive_typed_builder, impl_my_derive, impl_my_derive_gen, hd]⟩

/-- Witness for C7 at an enum input. -/
theorem non_named_input_one_diagnostic_witness :
    ∃ m, impl_my_derive enumInput = .value (.error ⟨m⟩) ∧
      derive_typed_builder enumInput = .value (.compileError m) :=
  non_named_input_one_diagnostic enumInput (fun _ h => by simp [enumInput] at h)

/-- C8 counterexample: on a one-required-field struct the generated
declaration sequence places the coercion bridge second, directly after the
entry point — not last as the claim states. -/
theorem generated_decl_order_claim_false :
    impl_my_derive oneFieldInput = .value (.ok
      [Decl.builderType, Decl.entryPoint, Decl.conversionBridge,
        Decl.setter "x", Decl.buildMethod]) ∧
    impl_my_derive oneFieldInput ≠ .value (.ok
      [Decl.builderType, Decl.entryPoint, Decl.setter "x",
        Decl.buildMethod, Decl.conversionBridge]) :=
  ⟨rfl, by
    intro h
    have h2 := Except.ok.inj (PanicOr.value.inj h)
    simp at h2⟩

/-- C8 (amended): for every named-field struct whose annotations all
classify successfully, the generated output handed to the code-emission
backend is, in order: builder type, entry point, coercion bridge type, the
N per-field setters in field order, finalizing operation — the coercion
bridge directly after the entry point, not last. -/
theorem generated_decl_order (ast : DeriveInput) (fields : List NamedField)
    (hast : ast.data = DataShape.structNamed fields)
    (info : List (String × FieldClass String))
    (hinfo : StructInfoNew fields = Except.ok info) :
    impl_my_derive ast = .value (.ok
      ([Decl.builderType, Decl.entryPoint, Decl.conversionBridge] ++
        info.map (fun f => Decl.setter f.1) ++ [Decl.buildMethod])) := by
  have h := impl_my_derive_named ast fields hast info hinfo
  simpa using h

/-- Witness for C8 (amended) at the one-required-field struct. -/
theorem generated_decl_order_witness :
    impl_my_derive oneFieldInput = .value (.ok
      ([Decl.builderType, Decl.entryPoint, Decl.conversionBridge] ++
        ([("x", (FieldClass.required : FieldClass String))].map
          (fun f => Decl.setter f.1)) ++ [Decl.buildMethod])) :=
  generated_decl_order oneFieldInput [⟨"x", .plain⟩] rfl
    [("x", .required)] rfl

/-- C9: the generator is deterministic — two runs of the derive on the same
input produce the same output (the model is a pure function of the input,
mirroring the single-pass synchronous transformation with no shared mutable
state). -/
theorem derive_deterministic (a b : DeriveInput) (h : a = b) :
    derive_typed_builder a = derive_typed_builder b ∧
      impl_my_derive a = impl_my_derive b := by
  subst h; exact ⟨rfl, rfl⟩

/-- Witness for C9 at the enum input. -/
theorem derive_deterministic_witness :
    derive_typed_builder enumInput = derive_typed_builder enumInput ∧
      impl_my_derive enumInput = impl_my_derive enumInput :=
  derive_deterministic enumInput enumInput rfl

/-- C10: on every named-field struct input on which the struct info (and
the infallible builder creation) succeeds, `field_impl` returns `Ok` on
every field, so the `unwrap` applied to each per-field result never
panics; and that `unwrap` is a genuine panic site — any per-field
generator returning an `Err` on one of the fields makes the derive abort
with a panic instead of reporting a compile-time diagnostic. -/
theorem field_impl_unwrap_safety (ast : DeriveInput)
    (fields : List NamedField)
    (hast : ast.data = DataShape.structNamed fields)
    (info : List (String × FieldClass String))
    (hinfo : StructInfoNew fields = Except.ok info) :
    (∀ f, f ∈ info → field_impl f = .ok (Decl.setter f.1)) ∧
      (∀ m, impl_my_derive ast ≠ PanicOr.panicked m) ∧
      (∀ g : String × FieldClass String → Except SynError Decl,
        (∃ f, f ∈ info ∧ ∀ d, g f ≠ Except.ok d) →
        ∃ m, impl_my_derive_gen g ast = PanicOr.panicked m) := by
  refine ⟨fun f _ => rfl, fun m hm => ?_,
    fun g hg => impl_my_derive_gen_panics ast fields hast info hinfo g hg⟩
  rw [impl_my_derive_named ast fields hast info hinfo] at hm
  exact PanicOr.noConfusion hm

/-- Witness for C10 at the one-required-field struct, with the failing
per-field generator exercising the panic branch. -/
theorem field_impl_unwrap_safety_witness :
    (∀ f, f ∈ [("x", (FieldClass.required : FieldClass String))] →
        field_impl f = .ok (Decl.setter f.1)) ∧
      (∀ m, impl_my_derive oneFieldInput ≠ PanicOr.panicked m) ∧
      (∀ g : String × FieldClass String → Except SynError Decl,
        (∃ f, f ∈ [("x", (FieldClass.required : FieldClass String))] ∧
          ∀ d, g f ≠ Except.ok d) →
        ∃ m, impl_my_derive_gen g oneFieldInput = PanicOr.panicked m) :=
  field_impl_unwrap_safety oneFieldInput [⟨"x", .plain⟩] rfl
    [("x", .required)] rfl

end TypedBuilder
